import Mathlib

/-!
# Pufferfishes App Builder: the service-worker template and the seed list

A shallow embedding of `src/templates/service-worker.template.js` (the
`install`, `activate` and `fetch` listeners) and of the file-list part of
`src/scripts/build-pwa.js` (`walkDir` and the `files.slice(0, 50)` injection).

The listeners are promise chains over host objects (`caches`, `fetch`,
`self.clients`).  A promise is modelled as a state transformer over a `World`
that holds the cache storage and a record of every host call made; what the
host answers (network responses, rejected deletions, its own origin) is given
by a `Host` record.  The modelling choices are:

* one listener runs to completion before another starts; the write of lines
  88-91, which the listener does not await, is queued in the world and
  completed by `settleWrites`;
* a cache entry is keyed by the URL of a GET request, and a clone of a
  response is the response itself;
* `caches.match(request)` is called without a `cacheName`, so it searches
  every store of the storage, in creation order;
* the placeholders `APP_ID` and `VERSION` of the template are the fields of a
  `Template` record.
-/

namespace Pufferfishes

/-! ## Data model -/

/-- A parsed URL: `new URL(request.url)` gives an origin and the rest
(path and query), which is what a cache entry is keyed by. -/
structure URL where
  origin : String
  path : String
deriving DecidableEq, Repr

/-- The URL as a string, as `request.url` prints. -/
def URL.href (u : URL) : String := u.origin ++ u.path

/-- An intercepted request: `request.method` and `request.url`. -/
structure Request where
  method : String
  url : URL
deriving DecidableEq, Repr

/-- A response: `response.status` and its body. A clone of a response is the
same value. -/
structure Response where
  status : Nat
  body : String
deriving DecidableEq, Repr

/-- One cache store: its entries, keyed by the URL of a GET request. -/
abbrev Cache := List (URL × Response)

/-- The origin's cache storage: named stores in creation order. -/
abbrev CacheStorage := List (String × Cache)

/-- The values the build script substitutes into the template:
`APP_ID`, `VERSION` and the injected array `urlsToCache`. -/
structure Template where
  appId : String
  version : String
  urlsToCache : List String
deriving DecidableEq, Repr

/-- Line 4: `'pufferfishes-app-' + APP_ID + '-v' + VERSION`. -/
def CACHE_NAME (t : Template) : String :=
  "pufferfishes-app-" ++ t.appId ++ "-v" ++ t.version

/-- What the host environment answers: `location.origin`, the outcome of a
network GET (`none` is a transport error, a rejected `fetch`), and whether
`caches.delete(name)` rejects for a given store name. -/
structure Host where
  origin : String
  network : URL → Option Response
  deleteRejects : String → Bool

/-- The observable state: the cache storage, and a record of the host calls
made so far (network attempts, cache lookups, deletions, `skipWaiting`,
`clients.claim`, console lines), together with the cache writes that were
started but not awaited. -/
structure World where
  storage : CacheStorage
  netCalls : List URL
  lookups : List URL
  deleteCalls : List String
  skipWaitingCalls : Nat
  claimCalls : Nat
  console : List String
  pendingWrites : List (URL × Response)
deriving DecidableEq, Repr

/-- How a promise settles. -/
inductive Settled (α : Type) where
  | fulfilled (value : α)
  | rejected (reason : String)
deriving DecidableEq, Repr

/-- A promise: running it changes the world and settles. -/
def Promise (α : Type) : Type := World → Settled α × World

namespace Promise

/-- The function `Promise.resolve(value)`. -/
def resolve {α : Type} (value : α) : Promise α :=
  fun w => (Settled.fulfilled value, w)

/-- The chain `p.then(f)`: `f` runs on fulfilment, a rejection passes through. -/
def andThen {α β : Type} (p : Promise α) (f : α → Promise β) : Promise β :=
  fun w =>
    match (p w).1 with
    | Settled.fulfilled a => f a (p w).2
    | Settled.rejected e => (Settled.rejected e, (p w).2)

/-- The chain `p.catch(f)`: `f` runs on rejection and its result settles the
chain, a fulfilment passes through. -/
def catchWith {α : Type} (p : Promise α) (f : String → Promise α) : Promise α :=
  fun w =>
    match (p w).1 with
    | Settled.fulfilled a => (Settled.fulfilled a, (p w).2)
    | Settled.rejected e => f e (p w).2

/-- How `Promise.all` settles from its first promise and the rest: the first
rejection in order wins, else the values are collected. -/
def joinSettled {α : Type} : Settled α → Settled (List α) → Settled (List α)
  | Settled.rejected e, _ => Settled.rejected e
  | Settled.fulfilled _, Settled.rejected e => Settled.rejected e
  | Settled.fulfilled a, Settled.fulfilled as => Settled.fulfilled (a :: as)

/-- The function `Promise.all(ps)` over promises that have all been started:
every one of them runs, whether or not another one rejects. -/
def all {α : Type} : List (Promise α) → Promise (List α)
  | [] => fun w => (Settled.fulfilled [], w)
  | p :: ps => fun w =>
    (joinSettled (p w).1 (all ps (p w).2).1, (all ps (p w).2).2)

end Promise

/-! ## Host operations -/

/-- JavaScript `s.startsWith(p)`. -/
def startsWith (s p : String) : Bool := p.toList.isPrefixOf s.toList

/-- The calls `console.log(line)` and `console.error(line)`. -/
def consoleLog (line : String) : Promise Unit :=
  fun w => (Settled.fulfilled (), { w with console := w.console ++ [line] })

/-- The lookup `cache.match(url)` in one store. -/
def cacheMatch (c : Cache) (u : URL) : Option Response :=
  (c.find? (fun e => e.1 == u)).map Prod.snd

/-- The storage-wide lookup: the first store, in creation order, that holds
the key answers. -/
def storageMatch (s : CacheStorage) (u : URL) : Option Response :=
  s.findSome? (fun store => cacheMatch store.2 u)

/-- The store with a given name, if there is one. -/
def storeNamed (s : CacheStorage) (name : String) : Option Cache :=
  (s.find? (fun store => store.1 == name)).map Prod.snd

/-- The call `caches.match(request)` with no `cacheName` option: it searches
every store of the storage, in creation order. -/
def cachesMatch (u : URL) : Promise (Option Response) :=
  fun w => (Settled.fulfilled (storageMatch w.storage u), { w with lookups := w.lookups ++ [u] })

/-- The call `caches.keys()`: the store names in creation order. -/
def cachesKeys : Promise (List String) :=
  fun w => (Settled.fulfilled (w.storage.map Prod.fst), w)

/-- Storage after `caches.open(name)`: the store is created empty, last in
creation order, when it does not exist. -/
def openStore (s : CacheStorage) (name : String) : CacheStorage :=
  if s.any (fun store => store.1 == name) then s else s ++ [(name, [])]

/-- The call `caches.open(name)`; the handle of the opened store is its name. -/
def cachesOpen (name : String) : Promise String :=
  fun w => (Settled.fulfilled name, { w with storage := openStore w.storage name })

/-- One store after `cache.put(url, response)`: an entry under the same key
is replaced. -/
def putEntry (c : Cache) (u : URL) (r : Response) : Cache :=
  c.filter (fun e => e.1 != u) ++ [(u, r)]

/-- Storage after a put into the store called `name`. -/
def putInStore (s : CacheStorage) (name : String) (u : URL) (r : Response) : CacheStorage :=
  s.map (fun store => if store.1 == name then (store.1, putEntry store.2 u r) else store)

/-- The call `cache.put(request, response)` on the store called `name`. -/
def cachePut (name : String) (u : URL) (r : Response) : Promise Unit :=
  fun w => (Settled.fulfilled (), { w with storage := putInStore w.storage name u r })

/-- The call `fetch(request)`: one network attempt, rejected on a transport
error, fulfilled with the response (whatever its status) otherwise. -/
def hostFetch (h : Host) (u : URL) : Promise Response :=
  fun w =>
    let w1 := { w with netCalls := w.netCalls ++ [u] }
    match h.network u with
    | some r => (Settled.fulfilled r, w1)
    | none => (Settled.rejected "TypeError: Failed to fetch", w1)

/-- A root-relative path string given to a cache call is resolved against the
worker's own location, hence has the worker's origin. -/
def resolvePath (h : Host) (p : String) : URL := { origin := h.origin, path := p }

/-- Whether `cache.addAll` accepts a fetched response: an ok status
(200 to 299) other than 206. -/
def acceptable (r : Response) : Bool :=
  decide (200 ≤ r.status) && decide (r.status ≤ 299) && decide (r.status ≠ 206)

/-- The responses of a batch, when every URL answers acceptably. -/
def fetchBatch (h : Host) : List URL → Option (List (URL × Response))
  | [] => some []
  | u :: us =>
    match h.network u with
    | some r =>
      if acceptable r then (fetchBatch h us).map (fun rest => (u, r) :: rest) else none
    | none => none

/-- The call `cache.addAll(urls)` on the store called `name`: every URL is
requested; if any request fails or answers unacceptably the promise rejects
with a `TypeError`; if every request is answered but the batch names one URL
twice the promise rejects with an `InvalidStateError`; in both cases nothing
is stored. Otherwise every response is put under its URL. -/
def cacheAddAll (h : Host) (name : String) (urls : List String) : Promise Unit :=
  fun w =>
    let us := urls.map (resolvePath h)
    let w1 := { w with netCalls := w.netCalls ++ us }
    match fetchBatch h us with
    | some entries =>
      if us.Nodup then
        (Settled.fulfilled (),
          { w1 with
            storage := entries.foldl (fun s e => putInStore s name e.1 e.2) w1.storage })
      else (Settled.rejected "InvalidStateError: duplicate requests", w1)
    | none => (Settled.rejected "TypeError: Request failed", w1)

/-- The call `caches.delete(name)`: the attempt is recorded; it rejects when
the host says so (the store stays), otherwise the store is removed and the
promise tells whether it existed. -/
def cachesDelete (h : Host) (name : String) : Promise Bool :=
  fun w =>
    let w1 := { w with deleteCalls := w.deleteCalls ++ [name] }
    if h.deleteRejects name then (Settled.rejected "delete failed", w1)
    else (Settled.fulfilled (w.storage.any (fun store => store.1 == name)),
          { w1 with storage := w.storage.filter (fun store => store.1 != name) })

/-- The call `self.skipWaiting()`. -/
def skipWaiting : Promise Unit :=
  fun w => (Settled.fulfilled (), { w with skipWaitingCalls := w.skipWaitingCalls + 1 })

/-- The call `self.clients.claim()`. -/
def clientsClaim : Promise Unit :=
  fun w => (Settled.fulfilled (), { w with claimCalls := w.claimCalls + 1 })

/-- A promise that is started and not awaited (`caches.open(..).then(..)` with
its result dropped): the write is queued, the caller goes on at once. -/
def detachWrite (u : URL) (r : Response) : Promise Unit :=
  fun w => (Settled.fulfilled (), { w with pendingWrites := w.pendingWrites ++ [(u, r)] })

/-! ## The service worker (`service-worker.template.js`) -/

/-- The work the `install` listener passes to `event.waitUntil` (lines 12-29). -/
def installHandler (t : Template) (h : Host) : Promise Unit :=
  (consoleLog "[Service Worker] Installing...").andThen fun _ =>
  ((((cachesOpen (CACHE_NAME t)).andThen fun cache =>
        (consoleLog "[Service Worker] Caching app shell").andThen fun _ =>
        cacheAddAll h cache t.urlsToCache).andThen fun _ =>
        (consoleLog "[Service Worker] App shell cached").andThen fun _ =>
        skipWaiting).catchWith fun error =>
        consoleLog ("[Service Worker] Cache failed: " ++ error))

/-- The filter of lines 40-43: the stores `activate` deletes. -/
def isOldCache (t : Template) (cacheName : String) : Bool :=
  startsWith cacheName ("pufferfishes-app-" ++ t.appId) && cacheName != CACHE_NAME t

/-- The callback of lines 44-47, run for each old cache: it logs the name and
starts `caches.delete(cacheName)`. -/
def deleteOld (h : Host) (cacheName : String) : Promise Bool :=
  (consoleLog ("[Service Worker] Deleting old cache: " ++ cacheName)).andThen fun _ =>
  cachesDelete h cacheName

/-- The work the `activate` listener passes to `event.waitUntil` (lines 32-55). -/
def activateHandler (t : Template) (h : Host) : Promise Unit :=
  (consoleLog "[Service Worker] Activating...").andThen fun _ =>
  ((cachesKeys.andThen fun cacheNames =>
      Promise.all ((cacheNames.filter (isOldCache t)).map (deleteOld h))).andThen fun _ =>
      (consoleLog "[Service Worker] Activated").andThen fun _ =>
      clientsClaim)

/-- The offline document of line 98: `'/apps/' + APP_ID + '/index.html'`. -/
def fallbackPath (t : Template) : String := "/apps/" ++ t.appId ++ "/index.html"

/-- The promise the `fetch` listener passes to `event.respondWith` (lines 72-101).
It settles with a response or with `undefined` (`none`). -/
def fetchResponse (t : Template) (h : Host) (request : Request) : Promise (Option Response) :=
  (cachesMatch request.url).andThen fun cachedResponse =>
    match cachedResponse with
    | some cached =>
      (consoleLog ("[Service Worker] Serving from cache: " ++ request.url.href)).andThen fun _ =>
      Promise.resolve (some cached)
    | none =>
      (consoleLog ("[Service Worker] Fetching from network: " ++ request.url.href)).andThen fun _ =>
      (((hostFetch h request.url).andThen fun networkResponse =>
          (if networkResponse.status = 200 then
              detachWrite request.url networkResponse
            else Promise.resolve ()).andThen fun _ =>
          Promise.resolve (some networkResponse)).catchWith fun error =>
          (consoleLog ("[Service Worker] Fetch failed: " ++ error)).andThen fun _ =>
          cachesMatch (resolvePath h (fallbackPath t)))

/-- What the `fetch` listener did with the event. -/
inductive FetchOutcome where
  | notHandled
  | respondedWith (result : Settled (Option Response))
deriving DecidableEq, Repr

/-- The `fetch` listener (lines 58-102): it returns without responding for a
method other than GET or a foreign origin, else it responds with
`fetchResponse`. -/
def fetchHandler (t : Template) (h : Host) (request : Request) (w : World) :
    FetchOutcome × World :=
  if request.method ≠ "GET" then (FetchOutcome.notHandled, w)
  else if request.url.origin ≠ h.origin then (FetchOutcome.notHandled, w)
  else
    (FetchOutcome.respondedWith (fetchResponse t h request w).1,
      (fetchResponse t h request w).2)

/-- The `message` listener (lines 105-109); `dataType` is `event.data.type`
when `event.data` is set. Any other message is ignored. -/
def messageHandler (dataType : Option String) : Promise Unit :=
  if dataType = some "SKIP_WAITING" then skipWaiting else Promise.resolve ()

/-- The detached write of lines 88-91, run to completion:
`caches.open(CACHE_NAME).then(cache => cache.put(request, responseToCache))`. -/
def writeBack (t : Template) (u : URL) (r : Response) : Promise Unit :=
  (cachesOpen (CACHE_NAME t)).andThen fun cache => cachePut cache u r

/-- The world once every pending write has completed, in the order started. -/
def settleWrites (t : Template) (w : World) : World :=
  w.pendingWrites.foldl (fun acc e => (writeBack t e.1 e.2 acc).2)
    { w with pendingWrites := [] }

/-- An empty world with a given cache storage. -/
def World.ofStorage (s : CacheStorage) : World :=
  { storage := s, netCalls := [], lookups := [], deleteCalls := [],
    skipWaitingCalls := 0, claimCalls := 0, console := [], pendingWrites := [] }

/-! ## The build script (`build-pwa.js`, lines 179-202) -/

/-- An entry of a directory as `readdirSync` and `statSync` show it. -/
inductive FsItem where
  | file (name : String)
  | directory (name : String) (items : List FsItem)

/-- The backslash character. -/
def backslash : Char := Char.ofNat 92

/-- The single quote character. -/
def singleQuote : Char := Char.ofNat 39

/-- The grave accent character. -/
def graveAccent : Char := Char.ofNat 96

/-- The call `.replace(/\\/g, '/')` of line 188: every backslash becomes a slash. -/
def slashes (s : String) : String :=
  String.mk (s.toList.map fun c => if c = backslash then '/' else c)

/-- Line 188: `path.relative(baseDir, fullPath).replace(/\\/g, '/')` for a file
whose path below `baseDir` is the list `segments`. The segments are joined by
the separator of the platform, and every backslash, a separator or a character
of a name, is then turned into a slash. -/
def relativePath (segments : List String) : String :=
  slashes ("/".intercalate segments)

mutual
/-- The function `walkDir(dir, baseDir)`: `dir` is given by its segments below
`baseDir` and by its items; the result is `files` after the walk. -/
def walkDir (appId : String) (dir : List String) (items : List FsItem)
    (files : List String) : List String :=
  match items with
  | [] => files
  | item :: rest => walkDir appId dir rest (walkItem appId dir item files)
/-- The body of the `forEach` of `walkDir` for one item. -/
def walkItem (appId : String) (dir : List String) (item : FsItem)
    (files : List String) : List String :=
  match item with
  | FsItem.directory name items => walkDir appId (dir ++ [name]) items files
  | FsItem.file name =>
    files ++ ["/apps/" ++ appId ++ "/" ++ relativePath (dir ++ [name])]
end

/-- JavaScript `xs.slice(start, stop)` for non-negative indices. -/
def slice {α : Type} (xs : List α) (start stop : Nat) : List α :=
  (xs.take stop).drop start

/-- The seed list the script injects: `files.slice(0, 50)`. -/
def seedList (files : List String) : List String := slice files 0 50

/-- The replacement string the script passes to `swContent.replace` on
line 200: the seed paths, each between single quotes, joined by a comma and a
line break. -/
def replacementText (files : List String) : String :=
  ",\n".intercalate ((seedList files).map fun f => "  '" ++ f ++ "'")

/-- The first occurrence of `pat` in a text: what stands before it and what
stands after it. -/
def splitAtFirst (pat : List Char) : List Char → Option (List Char × List Char)
  | [] => if pat.isEmpty then some ([], []) else none
  | c :: cs =>
    if pat.isPrefixOf (c :: cs) then some ([], (c :: cs).drop pat.length)
    else (splitAtFirst pat cs).map fun ba => (c :: ba.1, ba.2)

/-- How `String.prototype.replace` reads a replacement string when the pattern
is a string (no capture groups): a dollar sign followed by a dollar sign is
one dollar sign, followed by an ampersand it is the matched text, followed by
a grave accent the text before the match, followed by a single quote the text
after the match; any other dollar sign stands for itself. The flag tells
whether the previous character was an unconsumed dollar sign. -/
def getSubstitution (matched before after : List Char) : Bool → List Char → List Char
  | false, [] => []
  | true, [] => ['$']
  | false, c :: rest =>
    if c = '$' then getSubstitution matched before after true rest
    else c :: getSubstitution matched before after false rest
  | true, c :: rest =>
    if c = '$' then '$' :: getSubstitution matched before after false rest
    else if c = '&' then matched ++ getSubstitution matched before after false rest
    else if c = graveAccent then before ++ getSubstitution matched before after false rest
    else if c = singleQuote then after ++ getSubstitution matched before after false rest
    else '$' :: c :: getSubstitution matched before after false rest

/-- JavaScript `s.replace(pattern, replacement)` with a string pattern: the
first occurrence of the pattern, if any, is replaced by the replacement string
as `getSubstitution` reads it. -/
def jsReplace (s pattern replacement : String) : String :=
  match splitAtFirst pattern.toList s.toList with
  | none => s
  | some (before, after) =>
    String.mk (before ++
      getSubstitution pattern.toList before after false replacement.toList ++ after)

/-- Lines 198-201: the text of `service-worker.js` after the file list has been
injected into `swContent`. -/
def injectFileList (swContent : String) (files : List String) : String :=
  jsReplace swContent "// INJECT_FILE_LIST_HERE" (replacementText files)

/-! ## Auxiliary definitions for the statements -/

/-- The names `activate` passes to `caches.delete`: the existing store names,
in creation order, that pass the filter. -/
def oldCaches (t : Template) (w : World) : List String :=
  (w.storage.map Prod.fst).filter (isOldCache t)

/-- Whether the deletion of a store is attempted and goes through. -/
def removed (h : Host) (names : List String) (name : String) : Bool :=
  decide (name ∈ names) && !h.deleteRejects name

/-- The world after the deletions of `names` have all settled. -/
def afterDeletes (h : Host) (names : List String) (w : World) : World :=
  { w with
    storage := w.storage.filter (fun store => !removed h names store.1)
    deleteCalls := w.deleteCalls ++ names
    console := w.console ++ names.map (fun n => "[Service Worker] Deleting old cache: " ++ n) }

/-- A seed URL that the install batch can use: the network answers it with an
acceptable response. -/
def fetchable (h : Host) (u : URL) : Prop :=
  ∃ r, h.network u = some r ∧ acceptable r = true

/-- One store after a batch of puts, in order. -/
def putAll (c : Cache) (entries : List (URL × Response)) : Cache :=
  entries.foldl (fun acc e => putEntry acc e.1 e.2) c

/-- Storage after the detached write of one entry has completed. -/
def writeStorage (t : Template) (s : CacheStorage) (u : URL) (r : Response) : CacheStorage :=
  putInStore (openStore s (CACHE_NAME t)) (CACHE_NAME t) u r

/-- The key `u` is held by no store other than those named `name`. -/
def onlyIn (name : String) (u : URL) (s : CacheStorage) : Prop :=
  ∀ store ∈ s, store.1 ≠ name → cacheMatch store.2 u = none

/-- Every path of the list begins with `/apps/<app-id>/`. -/
def allUnderApp (appId : String) (files : List String) : Prop :=
  ∀ f ∈ files, startsWith f ("/apps/" ++ appId ++ "/") = true

/-! ## Example data -/

/-- The template filled in for app `app1`, build 2, with one seed path. -/
def exTemplate : Template :=
  { appId := "app1", version := "2", urlsToCache := ["/apps/app1/index.html"] }

/-- The same template with the seed path written twice. -/
def exTemplateTwice : Template :=
  { appId := "app1", version := "2",
    urlsToCache := ["/apps/app1/index.html", "/apps/app1/index.html"] }

/-- A build directory as the walk finds it: a script named `a$&b.js`, the
index document, and the icons, manifest and worker the script has written. -/
def exBuildDir : List FsItem :=
  [FsItem.file "a$&b.js",
   FsItem.directory "icons" [FsItem.file "icon-192.png", FsItem.file "icon-512.png"],
   FsItem.file "index.html", FsItem.file "manifest.json", FsItem.file "service-worker.js"]

/-- Lines 7-9 of the worker, where the marker stands. -/
def exWorkerLines : String :=
  "const urlsToCache = [\n  // INJECT_FILE_LIST_HERE\n];"

/-- The origin the example worker is served from. -/
def exOrigin : String := "https://pufferfishes.net"

/-- A script of app `app1`. -/
def exAsset : URL := { origin := exOrigin, path := "/apps/app1/main.js" }

/-- The response the example network gives. -/
def exFresh : Response := { status := 200, body := "fresh" }

/-- A response stored by an earlier generation. -/
def exStale : Response := { status := 200, body := "stale" }

/-- A host whose network answers every request and whose deletions succeed. -/
def hostOnline : Host :=
  { origin := exOrigin, network := fun _ => some exFresh, deleteRejects := fun _ => false }

/-- A host whose network is down. -/
def hostOffline : Host :=
  { origin := exOrigin, network := fun _ => none, deleteRejects := fun _ => false }

/-- A host on which deleting the store of build 0 rejects. -/
def hostDeleteFails : Host :=
  { origin := exOrigin, network := fun _ => some exFresh,
    deleteRejects := fun n => n == "pufferfishes-app-app1-v0" }

/-- A GET request for the example script. -/
def exRequest : Request := { method := "GET", url := exAsset }

/-- A POST request to the same URL. -/
def exPost : Request := { method := "POST", url := exAsset }

/-- Storage in which the store of build 1 holds the script and the store of
the current build is empty. -/
def storageStaleOnly : CacheStorage :=
  [("pufferfishes-app-app1-v1", [(exAsset, exStale)]), ("pufferfishes-app-app1-v2", [])]

/-- Storage in which both the store of build 1 and the current store hold the
script, with different responses. -/
def storageShadowed : CacheStorage :=
  [("pufferfishes-app-app1-v1", [(exAsset, exStale)]),
   ("pufferfishes-app-app1-v2", [(exAsset, exFresh)])]

/-- Storage holding a store of another app, `app10`, and an old store of `app1`. -/
def storageTwoApps : CacheStorage :=
  [("pufferfishes-app-app10-v1", [(exAsset, exStale)]), ("pufferfishes-app-app1-v1", [])]

/-- Storage with the stores of builds 0 and 1 of `app1`. -/
def storageTwoOld : CacheStorage :=
  [("pufferfishes-app-app1-v0", []), ("pufferfishes-app-app1-v1", [])]

/-! # Theorems -/

/-! ## The promise chains in closed form -/

theorem all_delete_world (h : Host) (names : List String) (w : World) :
    (Promise.all (names.map (deleteOld h)) w).2 = afterDeletes h names w := by
  induction names generalizing w with
  | nil => simp [Promise.all, removed, afterDeletes]
  | cons n ns ih =>
    simp only [List.map_cons, Promise.all, ih]
    simp only [deleteOld, Promise.andThen, consoleLog, cachesDelete]
    by_cases hr : h.deleteRejects n = true
    · simp only [hr, if_true]
      simp only [afterDeletes, List.map_cons, List.append_assoc, List.singleton_append,
        World.mk.injEq, and_true, true_and]
      apply List.filter_congr
      intro store _
      by_cases hn : store.1 = n
      · simp [removed, hn, hr]
      · simp [removed, hn]
    · simp only [hr, Bool.false_eq_true, if_false]
      simp only [afterDeletes, List.map_cons, List.append_assoc, List.singleton_append,
        World.mk.injEq, and_true, true_and, List.filter_filter]
      apply List.filter_congr
      intro store _
      by_cases hn : store.1 = n
      · simp [removed, hn, hr]
      · simp [removed, hn]

theorem all_delete_settled (h : Host) (names : List String) (w : World) :
    (if names.any h.deleteRejects then
        (Promise.all (names.map (deleteOld h)) w).1 = Settled.rejected "delete failed"
      else
        ∃ bs, (Promise.all (names.map (deleteOld h)) w).1 = Settled.fulfilled bs) := by
  induction names generalizing w with
  | nil => simp [Promise.all]
  | cons n ns ih =>
    have hd : (deleteOld h n w).1 =
        if h.deleteRejects n then Settled.rejected "delete failed"
        else Settled.fulfilled (w.storage.any (fun store => store.1 == n)) := by
      simp only [deleteOld, Promise.andThen, consoleLog, cachesDelete]
      split <;> rfl
    simp only [List.map_cons, Promise.all, List.any_cons, hd]
    by_cases hr : h.deleteRejects n = true
    · simp [hr, Promise.joinSettled]
    · simp only [hr, Bool.false_eq_true, if_false, Bool.false_or]
      have := ih (deleteOld h n w).2
      split at this
      · rw [if_pos (by assumption), this]; rfl
      · rw [if_neg (by assumption)]
        obtain ⟨bs, hbs⟩ := this
        exact ⟨_, by rw [hbs]; rfl⟩

/-- What `activate` does, in closed form: every old cache is passed to
`caches.delete`; the chain rejects, without claiming the clients, when one of
these deletions rejects, and claims them otherwise. -/
theorem activateHandler_run (t : Template) (h : Host) (w : World) :
    activateHandler t h w =
      (if (oldCaches t w).any h.deleteRejects then
        (Settled.rejected "delete failed",
          afterDeletes h (oldCaches t w)
            { w with console := w.console ++ ["[Service Worker] Activating..."] })
      else
        (Settled.fulfilled (),
          { afterDeletes h (oldCaches t w)
              { w with console := w.console ++ ["[Service Worker] Activating..."] } with
            claimCalls := w.claimCalls + 1
            console := w.console ++ ["[Service Worker] Activating..."] ++
              (oldCaches t w).map (fun n => "[Service Worker] Deleting old cache: " ++ n) ++
              ["[Service Worker] Activated"] })) := by
  have hw := all_delete_world h (oldCaches t w)
    { w with console := w.console ++ ["[Service Worker] Activating..."] }
  have hs := all_delete_settled h (oldCaches t w)
    { w with console := w.console ++ ["[Service Worker] Activating..."] }
  simp only [oldCaches] at hw hs ⊢
  simp only [activateHandler, Promise.andThen, consoleLog, cachesKeys, clientsClaim, hw]
  split at hs
  · rw [if_pos (by assumption)]
    simp only [hs]
  · rw [if_neg (by assumption)]
    obtain ⟨bs, hbs⟩ := hs
    simp only [hbs]
    simp [afterDeletes]

theorem activate_storage (t : Template) (h : Host) (w : World) :
    (activateHandler t h w).2.storage =
      w.storage.filter (fun store => !(isOldCache t store.1 && !h.deleteRejects store.1)) := by
  have : (activateHandler t h w).2.storage =
      w.storage.filter (fun store => !removed h (oldCaches t w) store.1) := by
    rw [activateHandler_run]
    split <;> rfl
  rw [this]
  apply List.filter_congr
  intro store hmem
  have hname : store.1 ∈ w.storage.map Prod.fst := List.mem_map.2 ⟨store, hmem, rfl⟩
  simp [removed, oldCaches, hname]

theorem fetchBatch_of_fetchable (h : Host) (us : List URL)
    (hall : ∀ u ∈ us, fetchable h u) :
    ∃ entries, fetchBatch h us = some entries ∧ entries.map Prod.fst = us ∧
      ∀ e ∈ entries, h.network e.1 = some e.2 := by
  induction us with
  | nil => exact ⟨[], rfl, rfl, by simp⟩
  | cons u us ih =>
    obtain ⟨r, hr, hacc⟩ := hall u (List.mem_cons_self _ _)
    obtain ⟨entries, he, hk, hv⟩ := ih (fun v hv => hall v (List.mem_cons_of_mem _ hv))
    refine ⟨(u, r) :: entries, ?_, ?_, ?_⟩
    · simp [fetchBatch, hr, hacc, he]
    · simp [hk]
    · intro e hmem
      rcases List.mem_cons.1 hmem with rfl | hmem
      · exact hr
      · exact hv e hmem

theorem fetchBatch_none_of_unfetchable (h : Host) (us : List URL)
    (hbad : ∃ u ∈ us, ¬ fetchable h u) : fetchBatch h us = none := by
  induction us with
  | nil => simp at hbad
  | cons u us ih =>
    simp only [fetchBatch]
    cases hn : h.network u with
    | none => rfl
    | some r =>
      by_cases hacc : acceptable r = true
      · simp only [hacc, if_true]
        obtain ⟨v, hv, hvbad⟩ := hbad
        rcases List.mem_cons.1 hv with rfl | hv
        · exact absurd ⟨r, hn, hacc⟩ hvbad
        · rw [ih ⟨v, hv, hvbad⟩]; rfl
      · simp [hacc]

/-- What `install` does, in closed form. The chain ends in its `catch`
callback, so it is fulfilled whether or not the batch went through. -/
theorem installHandler_run (t : Template) (h : Host) (w : World) :
    installHandler t h w =
      (Settled.fulfilled (),
        match fetchBatch h (t.urlsToCache.map (resolvePath h)) with
        | some entries =>
          if (t.urlsToCache.map (resolvePath h)).Nodup then
            { w with
              storage := entries.foldl (fun s e => putInStore s (CACHE_NAME t) e.1 e.2)
                (openStore w.storage (CACHE_NAME t))
              netCalls := w.netCalls ++ t.urlsToCache.map (resolvePath h)
              skipWaitingCalls := w.skipWaitingCalls + 1
              console := w.console ++ ["[Service Worker] Installing...",
                "[Service Worker] Caching app shell", "[Service Worker] App shell cached"] }
          else
            { w with
              storage := openStore w.storage (CACHE_NAME t)
              netCalls := w.netCalls ++ t.urlsToCache.map (resolvePath h)
              console := w.console ++ ["[Service Worker] Installing...",
                "[Service Worker] Caching app shell",
                "[Service Worker] Cache failed: InvalidStateError: duplicate requests"] }
        | none =>
          { w with
            storage := openStore w.storage (CACHE_NAME t)
            netCalls := w.netCalls ++ t.urlsToCache.map (resolvePath h)
            console := w.console ++ ["[Service Worker] Installing...",
              "[Service Worker] Caching app shell",
              "[Service Worker] Cache failed: TypeError: Request failed"] }) := by
  simp only [installHandler, Promise.andThen, Promise.catchWith, consoleLog, cachesOpen,
    cacheAddAll, skipWaiting]
  cases fetchBatch h (t.urlsToCache.map (resolvePath h)) with
  | none => simp
  | some entries =>
    by_cases hn : (t.urlsToCache.map (resolvePath h)).Nodup
    · simp [hn]
    · simp [hn]

/-- What the `fetch` promise does, in closed form. -/
theorem fetchResponse_run (t : Template) (h : Host) (request : Request) (w : World) :
    fetchResponse t h request w =
      (match storageMatch w.storage request.url with
      | some cached =>
        (Settled.fulfilled (some cached),
          { w with
            lookups := w.lookups ++ [request.url]
            console := w.console ++ ["[Service Worker] Serving from cache: " ++ request.url.href] })
      | none =>
        match h.network request.url with
        | some networkResponse =>
          (Settled.fulfilled (some networkResponse),
            { w with
              lookups := w.lookups ++ [request.url]
              netCalls := w.netCalls ++ [request.url]
              console := w.console ++
                ["[Service Worker] Fetching from network: " ++ request.url.href]
              pendingWrites :=
                if networkResponse.status = 200 then
                  w.pendingWrites ++ [(request.url, networkResponse)]
                else w.pendingWrites })
        | none =>
          (Settled.fulfilled (storageMatch w.storage (resolvePath h (fallbackPath t))),
            { w with
              lookups := w.lookups ++ [request.url, resolvePath h (fallbackPath t)]
              netCalls := w.netCalls ++ [request.url]
              console := w.console ++
                ["[Service Worker] Fetching from network: " ++ request.url.href,
                 "[Service Worker] Fetch failed: TypeError: Failed to fetch"] })) := by
  cases hm : storageMatch w.storage request.url with
  | some cached =>
    simp [fetchResponse, Promise.andThen, Promise.resolve, cachesMatch, consoleLog, hm]
  | none =>
    cases hn : h.network request.url with
    | none =>
      simp [fetchResponse, Promise.andThen, Promise.catchWith, Promise.resolve, cachesMatch,
        consoleLog, hostFetch, hm, hn]
    | some r =>
      by_cases hs : r.status = 200
      · simp [fetchResponse, Promise.andThen, Promise.catchWith, Promise.resolve, cachesMatch,
          consoleLog, hostFetch, detachWrite, hm, hn, hs]
      · simp [fetchResponse, Promise.andThen, Promise.catchWith, Promise.resolve, cachesMatch,
          consoleLog, hostFetch, detachWrite, hm, hn, hs]

theorem fetchHandler_handled (t : Template) (h : Host) (request : Request) (w : World)
    (hget : request.method = "GET") (horigin : request.url.origin = h.origin) :
    fetchHandler t h request w =
      (FetchOutcome.respondedWith (fetchResponse t h request w).1,
        (fetchResponse t h request w).2) := by
  simp [fetchHandler, hget, horigin]

theorem writeBack_run (t : Template) (u : URL) (r : Response) (w : World) :
    (writeBack t u r w).2 = { w with storage := writeStorage t w.storage u r } := by
  simp [writeBack, Promise.andThen, cachesOpen, cachePut, writeStorage]

/-! ## Stores and storage -/

theorem startsWith_cacheName (t : Template) :
    startsWith (CACHE_NAME t) ("pufferfishes-app-" ++ t.appId) = true := by
  simp [startsWith, CACHE_NAME, List.isPrefixOf_iff_prefix, List.append_assoc]

theorem isOldCache_cacheName (t : Template) : isOldCache t (CACHE_NAME t) = false := by
  simp [isOldCache]

theorem openStore_fresh (s : CacheStorage) (name : String)
    (hfresh : name ∉ s.map Prod.fst) : openStore s name = s ++ [(name, [])] := by
  unfold openStore
  rw [if_neg]
  simp only [List.any_eq_true, beq_iff_eq, not_exists, not_and]
  intro store hmem heq
  exact hfresh (List.mem_map.2 ⟨store, hmem, heq⟩)

theorem putInStore_fresh (s : CacheStorage) (name : String) (c : Cache) (u : URL)
    (r : Response) (hfresh : name ∉ s.map Prod.fst) :
    putInStore (s ++ [(name, c)]) name u r = s ++ [(name, putEntry c u r)] := by
  unfold putInStore
  rw [List.map_append]
  congr 1
  · conv_rhs => rw [← List.map_id s]
    apply List.map_congr_left
    intro store hmem
    have : store.1 ≠ name := fun heq => hfresh (List.mem_map.2 ⟨store, hmem, heq⟩)
    simp [this]
  · simp

theorem foldl_putInStore_fresh (s : CacheStorage) (name : String)
    (entries : List (URL × Response)) (c : Cache) (hfresh : name ∉ s.map Prod.fst) :
    entries.foldl (fun acc e => putInStore acc name e.1 e.2) (s ++ [(name, c)]) =
      s ++ [(name, putAll c entries)] := by
  induction entries generalizing c with
  | nil => rfl
  | cons e es ih =>
    simp only [List.foldl_cons, putAll]
    rw [putInStore_fresh s name c e.1 e.2 hfresh, ih]
    rfl

theorem cacheMatch_putEntry (c : Cache) (u : URL) (r : Response) (k : URL) :
    cacheMatch (putEntry c u r) k = if k = u then some r else cacheMatch c k := by
  unfold cacheMatch putEntry
  rw [List.find?_append, List.find?_filter]
  by_cases hk : k = u
  · subst hk
    have : List.find? (fun a => decide ((a.1 != k) = true ∧ (a.1 == k) = true)) c = none := by
      rw [List.find?_eq_none]
      intro x _
      simp
    simp [this]
  · have hne : (u == k) = false := by
      simp only [beq_eq_false_iff_ne, ne_eq]
      exact fun e => hk e.symm
    have hfun : (fun a : URL × Response => decide ((a.1 != u) = true ∧ (a.1 == k) = true)) =
        (fun a => a.1 == k) := by
      funext a
      by_cases ha : a.1 = k
      · simp [ha, hk]
      · simp [ha]
    rw [hfun]
    simp [hk, hne]

theorem cacheMatch_eq_none_iff (c : Cache) (k : URL) :
    cacheMatch c k = none ↔ k ∉ c.map Prod.fst := by
  unfold cacheMatch
  simp only [Option.map_eq_none', List.find?_eq_none, beq_iff_eq, List.mem_map, not_exists,
    not_and]

theorem cacheMatch_putAll (h : Host) (entries : List (URL × Response)) (c : Cache) (k : URL)
    (hnet : ∀ e ∈ entries, h.network e.1 = some e.2) :
    cacheMatch (putAll c entries) k =
      if k ∈ entries.map Prod.fst then h.network k else cacheMatch c k := by
  induction entries generalizing c with
  | nil => simp [putAll]
  | cons e es ih =>
    have hes : ∀ e ∈ es, h.network e.1 = some e.2 :=
      fun x hx => hnet x (List.mem_cons_of_mem _ hx)
    have he : h.network e.1 = some e.2 := hnet e (List.mem_cons_self _ _)
    show cacheMatch (putAll (putEntry c e.1 e.2) es) k = _
    rw [ih _ hes, cacheMatch_putEntry]
    by_cases h1 : k ∈ es.map Prod.fst
    · simp [h1]
    · by_cases h2 : k = e.1
      · subst h2
        simp [h1, he]
      · have : k ∉ (e :: es).map Prod.fst := by
          simp only [List.map_cons, List.mem_cons, not_or]
          exact ⟨h2, h1⟩
        rw [if_neg h1, if_neg h2, if_neg this]

theorem length_putEntry_le (c : Cache) (u : URL) (r : Response) :
    (putEntry c u r).length ≤ c.length + 1 := by
  unfold putEntry
  rw [List.length_append]
  exact Nat.add_le_add_right (List.length_filter_le _ _) _

theorem length_putAll_le (entries : List (URL × Response)) (c : Cache) :
    (putAll c entries).length ≤ c.length + entries.length := by
  induction entries generalizing c with
  | nil => simp [putAll]
  | cons e es ih =>
    show (putAll (putEntry c e.1 e.2) es).length ≤ _
    have h1 := ih (putEntry c e.1 e.2)
    have h2 := length_putEntry_le c e.1 e.2
    simp only [List.length_cons]
    omega

theorem storageMatch_eq_none_iff (s : CacheStorage) (u : URL) :
    storageMatch s u = none ↔ ∀ store ∈ s, cacheMatch store.2 u = none := by
  unfold storageMatch
  exact List.findSome?_eq_none_iff

theorem storageMatch_mem (s : CacheStorage) (u : URL) (r : Response)
    (hm : storageMatch s u = some r) : ∃ store ∈ s, cacheMatch store.2 u = some r := by
  unfold storageMatch at hm
  obtain ⟨store, hmem, heq⟩ := List.exists_of_findSome?_eq_some hm
  exact ⟨store, hmem, heq⟩

theorem findSome_of_agree {α β : Type} (f : α → Option β) (l : List α) (b : β)
    (hall : ∀ x ∈ l, f x = none ∨ f x = some b) (hex : ∃ x ∈ l, f x = some b) :
    l.findSome? f = some b := by
  induction l with
  | nil => obtain ⟨x, hx, _⟩ := hex; cases hx
  | cons a as ih =>
    rw [List.findSome?_cons]
    rcases hall a (List.mem_cons_self _ _) with ha | ha
    · rw [ha]
      obtain ⟨x, hx, hfx⟩ := hex
      rcases List.mem_cons.1 hx with rfl | hx
      · rw [ha] at hfx; cases hfx
      · exact ih (fun y hy => hall y (List.mem_cons_of_mem _ hy)) ⟨x, hx, hfx⟩
    · rw [ha]

theorem storeNamed_first (s : CacheStorage) (name : String) (u : URL) (c : Cache)
    (r : Response) (hc : storeNamed s name = some c) (hr : cacheMatch c u = some r)
    (hothers : ∀ store ∈ s, store.1 ≠ name → cacheMatch store.2 u = none) :
    storageMatch s u = some r := by
  induction s with
  | nil => simp [storeNamed] at hc
  | cons store rest ih =>
    unfold storageMatch
    rw [List.findSome?_cons]
    by_cases hn : store.1 = name
    · have : storeNamed (store :: rest) name = some store.2 := by
        simp [storeNamed, List.find?_cons, hn]
      rw [this] at hc
      cases hc
      rw [hr]
    · have hnone := hothers store (List.mem_cons_self _ _) hn
      rw [hnone]
      have : storeNamed (store :: rest) name = storeNamed rest name := by
        simp [storeNamed, List.find?_cons, hn]
      rw [this] at hc
      exact ih hc (fun x hx => hothers x (List.mem_cons_of_mem _ hx))

theorem mem_openStore (s : CacheStorage) (name : String) (store : String × Cache)
    (hmem : store ∈ openStore s name) : store ∈ s ∨ store = (name, []) := by
  unfold openStore at hmem
  split at hmem
  · exact Or.inl hmem
  · rcases List.mem_append.1 hmem with hm | hm
    · exact Or.inl hm
    · exact Or.inr (by simpa using hm)

theorem exists_named_openStore (s : CacheStorage) (name : String) :
    ∃ store ∈ openStore s name, store.1 = name := by
  unfold openStore
  split
  · rename_i hany
    obtain ⟨store, hmem, heq⟩ := List.any_eq_true.1 hany
    exact ⟨store, hmem, by simpa using heq⟩
  · exact ⟨(name, []), by simp, rfl⟩

theorem mem_writeStorage (t : Template) (s : CacheStorage) (u : URL) (r : Response)
    (store : String × Cache) (hmem : store ∈ writeStorage t s u r) :
    (store.1 = CACHE_NAME t ∧ cacheMatch store.2 u = some r) ∨
      (store.1 ≠ CACHE_NAME t ∧ store ∈ s) := by
  unfold writeStorage putInStore at hmem
  obtain ⟨old, hold, rfl⟩ := List.mem_map.1 hmem
  by_cases hn : old.1 = CACHE_NAME t
  · left
    simp [hn, cacheMatch_putEntry]
  · right
    simp only [beq_iff_eq, hn, if_false]
    refine ⟨hn, ?_⟩
    rcases mem_openStore _ _ _ hold with h1 | h1
    · exact h1
    · exact absurd (by rw [h1]) hn

theorem exists_named_writeStorage (t : Template) (s : CacheStorage) (u : URL)
    (r : Response) : ∃ store ∈ writeStorage t s u r, store.1 = CACHE_NAME t := by
  obtain ⟨store, hmem, hname⟩ := exists_named_openStore s (CACHE_NAME t)
  unfold writeStorage putInStore
  refine ⟨(store.1, putEntry store.2 u r), ?_, hname⟩
  refine List.mem_map.2 ⟨store, hmem, ?_⟩
  simp [hname]

theorem onlyIn_writeStorage (t : Template) (s : CacheStorage) (u k : URL) (r : Response)
    (hs : onlyIn (CACHE_NAME t) k s) : onlyIn (CACHE_NAME t) k (writeStorage t s u r) := by
  intro store hmem hne
  rcases mem_writeStorage t s u r store hmem with ⟨h1, _⟩ | ⟨_, h2⟩
  · exact absurd h1 hne
  · exact hs store h2 hne

theorem settle_fold (t : Template) (pending : List (URL × Response)) (w : World) (k : URL)
    (hs : onlyIn (CACHE_NAME t) k w.storage) :
    onlyIn (CACHE_NAME t) k
        (pending.foldl (fun acc e => (writeBack t e.1 e.2 acc).2) w).storage ∧
      (pending.foldl (fun acc e => (writeBack t e.1 e.2 acc).2) w).netCalls = w.netCalls := by
  induction pending generalizing w with
  | nil => exact ⟨hs, rfl⟩
  | cons e es ih =>
    simp only [List.foldl_cons]
    have := ih (writeBack t e.1 e.2 w).2 (by
      rw [writeBack_run]
      exact onlyIn_writeStorage t _ _ _ _ hs)
    rw [writeBack_run] at this ⊢
    exact this

/-! ## The directory walk -/

mutual
theorem walkDir_allUnderApp (appId : String) (dir : List String) (items : List FsItem)
    (files : List String) (hfiles : allUnderApp appId files) :
    allUnderApp appId (walkDir appId dir items files) := by
  match items with
  | [] => rw [walkDir]; exact hfiles
  | item :: rest =>
    rw [walkDir]
    exact walkDir_allUnderApp appId dir rest _ (walkItem_allUnderApp appId dir item files hfiles)
theorem walkItem_allUnderApp (appId : String) (dir : List String) (item : FsItem)
    (files : List String) (hfiles : allUnderApp appId files) :
    allUnderApp appId (walkItem appId dir item files) := by
  match item with
  | FsItem.directory name items =>
    rw [walkItem]
    exact walkDir_allUnderApp appId (dir ++ [name]) items files hfiles
  | FsItem.file name =>
    rw [walkItem]
    intro f hf
    rcases List.mem_append.1 hf with hf | hf
    · exact hfiles f hf
    · simp only [List.mem_singleton] at hf
      subst hf
      simp [startsWith, List.isPrefixOf_iff_prefix, List.append_assoc]
end

theorem slice_zero {α : Type} (xs : List α) (stop : Nat) : slice xs 0 stop = xs.take stop := by
  simp [slice]

/-! ## Activation (C1, C10) -/

/-- C1 (failing input). Activating build 2 of app `app1` deletes the store of
app `app10`, whose id only begins with `app1`: the store exists before and is
gone after. -/
theorem activate_deletes_store_of_app_with_longer_id :
    storeNamed (World.ofStorage storageTwoApps).storage "pufferfishes-app-app10-v1" =
      some [(exAsset, exStale)] ∧
    storeNamed (activateHandler exTemplate hostOnline (World.ofStorage storageTwoApps)).2.storage
      "pufferfishes-app-app10-v1" = none ∧
    (activateHandler exTemplate hostOnline (World.ofStorage storageTwoApps)).2.deleteCalls =
      ["pufferfishes-app-app10-v1", "pufferfishes-app-app1-v1"] := by
  decide

/-- Stores whose name does not begin with `pufferfishes-app-<app-id>`, and the
current store, are kept by `activate` whatever the deletions do. -/
theorem activate_keeps_store (t : Template) (h : Host) (w : World) (store : String × Cache)
    (hmem : store ∈ w.storage)
    (hkeep : startsWith store.1 ("pufferfishes-app-" ++ t.appId) = false ∨
      store.1 = CACHE_NAME t) :
    store ∈ (activateHandler t h w).2.storage := by
  rw [activate_storage]
  refine List.mem_filter.2 ⟨hmem, ?_⟩
  rcases hkeep with hk | hk
  · simp [isOldCache, hk]
  · simp [isOldCache, hk]

/-- C10 (counterexample). Two old stores are eligible; the deletion of the
first rejects. Both deletions are attempted and the second store is removed,
but `clients.claim` is not called and the registered work is rejected. -/
theorem activate_does_not_claim_when_a_deletion_rejects :
    (activateHandler exTemplate hostDeleteFails (World.ofStorage storageTwoOld)).2.deleteCalls =
      ["pufferfishes-app-app1-v0", "pufferfishes-app-app1-v1"] ∧
    (activateHandler exTemplate hostDeleteFails (World.ofStorage storageTwoOld)).2.storage =
      [("pufferfishes-app-app1-v0", [])] ∧
    (activateHandler exTemplate hostDeleteFails (World.ofStorage storageTwoOld)).2.claimCalls = 0 ∧
    (activateHandler exTemplate hostDeleteFails (World.ofStorage storageTwoOld)).1 =
      Settled.rejected "delete failed" := by
  decide

/-- C10 (amended). `activate` passes every eligible store to `caches.delete`,
whichever of these deletions reject, and removes each one whose deletion does
not reject; it calls `clients.claim` exactly when none of the deletions
rejects, and otherwise its registered work is rejected without claiming. -/
theorem activate_attempts_all_and_claims_unless_rejected (t : Template) (h : Host)
    (w : World) :
    (activateHandler t h w).2.deleteCalls = w.deleteCalls ++ oldCaches t w ∧
    (activateHandler t h w).2.storage =
      w.storage.filter (fun store => !(isOldCache t store.1 && !h.deleteRejects store.1)) ∧
    (activateHandler t h w).2.claimCalls =
      (if (oldCaches t w).any h.deleteRejects then w.claimCalls else w.claimCalls + 1) ∧
    (activateHandler t h w).1 =
      (if (oldCaches t w).any h.deleteRejects then Settled.rejected "delete failed"
        else Settled.fulfilled ()) := by
  refine ⟨?_, activate_storage t h w, ?_, ?_⟩
  · rw [activateHandler_run]; split <;> rfl
  · rw [activateHandler_run]; split <;> rfl
  · rw [activateHandler_run]; split <;> rfl

/-! ## Installation (C2, C3) -/

/-- C2 (counterexample). The seed list names the index document twice; it is
fetchable, no store is named for the current generation and every deletion
succeeds. The host rejects the batch, the `catch` callback logs it, and after
`install` and `activate` the current store is empty: its keys are not the seed
paths, and `skipWaiting` was not called. -/
theorem install_with_repeated_seed_stores_nothing :
    exTemplateTwice.urlsToCache.length ≤ 50 ∧
    (∀ p ∈ exTemplateTwice.urlsToCache, fetchable hostOnline (resolvePath hostOnline p)) ∧
    CACHE_NAME exTemplateTwice ∉ (World.ofStorage storageTwoOld).storage.map Prod.fst ∧
    storeNamed
      (activateHandler exTemplateTwice hostOnline
        (installHandler exTemplateTwice hostOnline (World.ofStorage storageTwoOld)).2).2.storage
      (CACHE_NAME exTemplateTwice) = some [] ∧
    (installHandler exTemplateTwice hostOnline
      (World.ofStorage storageTwoOld)).2.skipWaitingCalls = 0 := by
  refine ⟨by decide, ?_, by decide, by decide, by decide⟩
  intro p _
  exact ⟨exFresh, rfl, by decide⟩

/-- C2 (amended). For a seed list of at most 50 pairwise distinct paths that
are all fetchable, and a storage with no store named for the current
generation, `install` followed by `activate` with every deletion succeeding
leaves exactly one store whose name starts with `pufferfishes-app-<app-id>`,
the one named `CACHE_NAME`; its keys are exactly the seed paths (each mapped to
the response the network gave, at most 50 entries), and no store that passes
the old-cache filter remains. -/
theorem install_then_activate_single_store (t : Template) (h : Host) (w : World)
    (hlen : t.urlsToCache.length ≤ 50)
    (hdistinct : t.urlsToCache.Nodup)
    (hfetch : ∀ p ∈ t.urlsToCache, fetchable h (resolvePath h p))
    (hfresh : CACHE_NAME t ∉ w.storage.map Prod.fst)
    (hdel : ∀ n, h.deleteRejects n = false) :
    (installHandler t h w).1 = Settled.fulfilled () ∧
    (activateHandler t h (installHandler t h w).2).1 = Settled.fulfilled () ∧
    ((activateHandler t h (installHandler t h w).2).2.storage.map Prod.fst).filter
        (fun n => startsWith n ("pufferfishes-app-" ++ t.appId)) = [CACHE_NAME t] ∧
    (∃ c, storeNamed (activateHandler t h (installHandler t h w).2).2.storage (CACHE_NAME t)
          = some c ∧
        (∀ u, u ∈ c.map Prod.fst ↔ u ∈ t.urlsToCache.map (resolvePath h)) ∧
        (∀ u ∈ c.map Prod.fst, cacheMatch c u = h.network u) ∧
        c.length ≤ 50) ∧
    (∀ n ∈ (activateHandler t h (installHandler t h w).2).2.storage.map Prod.fst,
        isOldCache t n = false) := by
  obtain ⟨entries, hbatch, hkeys, hnet⟩ :=
    fetchBatch_of_fetchable h (t.urlsToCache.map (resolvePath h))
      (fun u hu => by
        obtain ⟨p, hp, rfl⟩ := List.mem_map.1 hu
        exact hfetch p hp)
  have hnodup : (t.urlsToCache.map (resolvePath h)).Nodup := by
    apply List.Nodup.map _ hdistinct
    intro p q hpq
    exact congrArg URL.path hpq
  have hst1 : (installHandler t h w).2.storage =
      w.storage ++ [(CACHE_NAME t, putAll [] entries)] := by
    rw [installHandler_run, hbatch]
    simp only [hnodup, if_true]
    rw [openStore_fresh _ _ hfresh, foldl_putInStore_fresh _ _ _ _ hfresh]
  have hnoOld : ∀ store ∈ w.storage,
      startsWith store.1 ("pufferfishes-app-" ++ t.appId) = true →
        isOldCache t store.1 = true := by
    intro store hmem hpre
    have hne : store.1 ≠ CACHE_NAME t :=
      fun heq => hfresh (List.mem_map.2 ⟨store, hmem, heq⟩)
    simp [isOldCache, hpre, hne]
  have hst2 : (activateHandler t h (installHandler t h w).2).2.storage =
      w.storage.filter (fun store => !isOldCache t store.1) ++
        [(CACHE_NAME t, putAll [] entries)] := by
    rw [activate_storage, hst1, List.filter_append]
    simp [hdel, isOldCache_cacheName]
  have hlenc : (putAll [] entries).length ≤ 50 := by
    have h1 := length_putAll_le entries []
    have h2 : entries.length = t.urlsToCache.length := by
      have := congrArg List.length hkeys
      simpa using this
    simp only [List.length_nil] at h1
    omega
  refine ⟨?_, ?_, ?_, ⟨putAll [] entries, ?_, ?_, ?_, hlenc⟩, ?_⟩
  · rw [installHandler_run]
  · rw [activateHandler_run]
    have : (oldCaches t (installHandler t h w).2).any h.deleteRejects = false := by
      simp [hdel]
    simp [this]
  · rw [hst2, List.map_append, List.filter_append]
    have hnil : List.filter (fun n => startsWith n ("pufferfishes-app-" ++ t.appId))
        (List.map Prod.fst (List.filter (fun store => !isOldCache t store.1) w.storage)) = [] := by
      rw [List.filter_eq_nil_iff]
      intro n hn hpre
      obtain ⟨store, hmem, rfl⟩ := List.mem_map.1 hn
      have hm := List.mem_filter.1 hmem
      have := hnoOld store hm.1 hpre
      simp [this] at hm
    rw [hnil]
    simp [startsWith_cacheName]
  · rw [hst2]
    unfold storeNamed
    rw [List.find?_append]
    have hnone : List.find? (fun store => store.1 == CACHE_NAME t)
        (List.filter (fun store => !isOldCache t store.1) w.storage) = none := by
      rw [List.find?_eq_none]
      intro store hmem heq
      have hm := List.mem_filter.1 hmem
      exact hfresh (List.mem_map.2 ⟨store, hm.1, by simpa using heq⟩)
    rw [hnone]
    simp
  · intro u
    rw [← hkeys]
    have := cacheMatch_putAll h entries [] u hnet
    have hiff := cacheMatch_eq_none_iff (putAll [] entries) u
    constructor
    · intro hu
      by_contra hcon
      rw [if_neg hcon] at this
      exact (hiff.1 this) hu
    · intro hu
      by_contra hcon
      rw [if_pos hu] at this
      have hnone := hiff.2 hcon
      rw [hnone] at this
      obtain ⟨e, he, rfl⟩ := List.mem_map.1 hu
      rw [hnet e he] at this
      cases this
  · intro u hu
    have := cacheMatch_putAll h entries [] u hnet
    by_cases hin : u ∈ entries.map Prod.fst
    · rw [if_pos hin] at this
      exact this
    · rw [if_neg hin] at this
      exact absurd hu ((cacheMatch_eq_none_iff _ _).1 this)
  · intro n hn
    rw [hst2, List.map_append] at hn
    rcases List.mem_append.1 hn with hn | hn
    · obtain ⟨store, hmem, rfl⟩ := List.mem_map.1 hn
      have hm := List.mem_filter.1 hmem
      simpa using hm.2
    · simp only [List.map_cons, List.map_nil, List.mem_singleton] at hn
      rw [hn]
      exact isOldCache_cacheName t

/-- C2 (witness). One fetchable seed, two old stores of the app, deletions that
succeed: afterwards the only store of the app is the current one. -/
theorem install_then_activate_single_store_witness :
    CACHE_NAME exTemplate ∉ (World.ofStorage storageTwoOld).storage.map Prod.fst ∧
    ((activateHandler exTemplate hostOnline
        (installHandler exTemplate hostOnline (World.ofStorage storageTwoOld)).2).2.storage.map
          Prod.fst).filter
        (fun n => startsWith n ("pufferfishes-app-" ++ exTemplate.appId)) =
      [CACHE_NAME exTemplate] :=
  ⟨by decide,
    (install_then_activate_single_store exTemplate hostOnline (World.ofStorage storageTwoOld)
      (by decide) (by decide) (fun _ _ => ⟨exFresh, rfl, by decide⟩) (by decide)
      (fun _ => rfl)).2.2.1⟩

/-- C3 (counterexample). With the network down the one seed path cannot be
fetched, yet the work `install` registers is fulfilled, not rejected. -/
theorem install_fulfilled_although_seed_unfetchable :
    ¬ fetchable hostOffline (resolvePath hostOffline "/apps/app1/index.html") ∧
    (installHandler exTemplate hostOffline (World.ofStorage [])).1 = Settled.fulfilled () ∧
    ∀ e, (installHandler exTemplate hostOffline (World.ofStorage [])).1 ≠ Settled.rejected e := by
  have hful : (installHandler exTemplate hostOffline (World.ofStorage [])).1 =
      Settled.fulfilled () := by decide
  refine ⟨?_, hful, ?_⟩
  · intro hf
    obtain ⟨r, hr, _⟩ := hf
    cases hr
  · intro e he
    rw [hful] at he
    cases he

/-- C3 (amended). When a seed path cannot be fetched, the work `install`
registers is fulfilled: the rejection of the batch is caught and logged,
`skipWaiting` is not called, and no seed entry is stored (the store of the
current generation is opened and left as it was). -/
theorem install_failure_is_caught (t : Template) (h : Host) (w : World)
    (hbad : ∃ p ∈ t.urlsToCache, ¬ fetchable h (resolvePath h p)) :
    (installHandler t h w).1 = Settled.fulfilled () ∧
    (installHandler t h w).2.storage = openStore w.storage (CACHE_NAME t) ∧
    (installHandler t h w).2.skipWaitingCalls = w.skipWaitingCalls ∧
    (installHandler t h w).2.console = w.console ++ ["[Service Worker] Installing...",
      "[Service Worker] Caching app shell",
      "[Service Worker] Cache failed: TypeError: Request failed"] := by
  have hnone : fetchBatch h (t.urlsToCache.map (resolvePath h)) = none := by
    apply fetchBatch_none_of_unfetchable
    obtain ⟨p, hp, hnot⟩ := hbad
    exact ⟨resolvePath h p, List.mem_map.2 ⟨p, hp, rfl⟩, hnot⟩
  rw [installHandler_run, hnone]
  exact ⟨rfl, rfl, rfl, rfl⟩

/-- C3 (witness). With the network down the install work is fulfilled, the
current store is opened empty and `skipWaiting` is not called. -/
theorem install_failure_is_caught_witness :
    (installHandler exTemplate hostOffline (World.ofStorage [])).1 = Settled.fulfilled () ∧
    (installHandler exTemplate hostOffline (World.ofStorage [])).2.storage =
      [("pufferfishes-app-app1-v2", [])] ∧
    (installHandler exTemplate hostOffline (World.ofStorage [])).2.skipWaitingCalls = 0 :=
  have hw := install_failure_is_caught exTemplate hostOffline (World.ofStorage [])
    ⟨"/apps/app1/index.html", by decide, fun hf => by
      obtain ⟨r, hr, _⟩ := hf
      cases hr⟩
  ⟨hw.1, hw.2.1, hw.2.2.1⟩

/-! ## Request interception (C4 to C8) -/

/-- C4 (counterexample). The script is absent from the current store and held
by the store of build 1: the lookup finds it there, the handler answers with
that copy and makes no network attempt. -/
theorem fetch_hit_in_other_store_makes_no_network_attempt :
    storeNamed storageStaleOnly (CACHE_NAME exTemplate) = some [] ∧
    cacheMatch [] exRequest.url = none ∧
    (fetchHandler exTemplate hostOnline exRequest (World.ofStorage storageStaleOnly)).1 =
      FetchOutcome.respondedWith (Settled.fulfilled (some exStale)) ∧
    (fetchHandler exTemplate hostOnline exRequest (World.ofStorage storageStaleOnly)).2.netCalls
      = [] ∧
    (fetchHandler exTemplate hostOnline exRequest (World.ofStorage storageStaleOnly)).2.lookups
      = [exAsset] := by
  decide

/-- C4 (amended). For a same-origin GET request whose key is absent from every
store of the cache storage, the handler makes exactly one network attempt (for
that request); the lookup is storage-wide, so when any store, the active one
or another, holds the key, the handler makes no network attempt and answers
with the first stored response. -/
theorem fetch_miss_everywhere_one_network_attempt (t : Template) (h : Host)
    (request : Request) (w : World)
    (hget : request.method = "GET") (horigin : request.url.origin = h.origin) :
    ((∀ store ∈ w.storage, cacheMatch store.2 request.url = none) →
      (fetchHandler t h request w).2.netCalls = w.netCalls ++ [request.url]) ∧
    (∀ r, storageMatch w.storage request.url = some r →
      (fetchHandler t h request w).2.netCalls = w.netCalls ∧
      (fetchHandler t h request w).1 =
        FetchOutcome.respondedWith (Settled.fulfilled (some r))) := by
  rw [fetchHandler_handled t h request w hget horigin, fetchResponse_run]
  constructor
  · intro habsent
    rw [(storageMatch_eq_none_iff _ _).2 habsent]
    cases h.network request.url <;> rfl
  · intro r hr
    rw [hr]
    exact ⟨rfl, rfl⟩

/-- C4 (witness). With the script in no store, one network attempt is made. -/
theorem fetch_miss_everywhere_one_network_attempt_witness :
    (fetchHandler exTemplate hostOnline exRequest
      (World.ofStorage [("pufferfishes-app-app1-v2", [])])).2.netCalls = [exAsset] :=
  (fetch_miss_everywhere_one_network_attempt exTemplate hostOnline exRequest
    (World.ofStorage [("pufferfishes-app-app1-v2", [])]) rfl rfl).1 (by decide)

/-- C5 (counterexample). The script and the fallback document are absent and
the network is down: the handler's promise is fulfilled with no response; it
is not rejected, with the network error or any other. -/
theorem fetch_offline_without_fallback_is_fulfilled :
    hostOffline.network exRequest.url = none ∧
    storageMatch [("pufferfishes-app-app1-v2", [])]
      (resolvePath hostOffline (fallbackPath exTemplate)) = none ∧
    (fetchHandler exTemplate hostOffline exRequest
      (World.ofStorage [("pufferfishes-app-app1-v2", [])])).1 =
        FetchOutcome.respondedWith (Settled.fulfilled none) ∧
    ∀ e, (fetchHandler exTemplate hostOffline exRequest
      (World.ofStorage [("pufferfishes-app-app1-v2", [])])).1 ≠
        FetchOutcome.respondedWith (Settled.rejected e) := by
  have hful : (fetchHandler exTemplate hostOffline exRequest
      (World.ofStorage [("pufferfishes-app-app1-v2", [])])).1 =
        FetchOutcome.respondedWith (Settled.fulfilled none) := by decide
  refine ⟨rfl, by decide, hful, ?_⟩
  intro e he
  rw [hful] at he
  cases he

/-- C5 (amended). For a same-origin GET request whose key is absent from the
cache storage and whose network attempt fails with a transport error: if the
fallback document `/apps/<app-id>/index.html` is stored, the handler answers
with the stored document (the first copy in creation order of the stores); if
no store holds it, the handler's promise is fulfilled with no response, the
error being logged and not re-raised. -/
theorem fetch_transport_error_answers_fallback_lookup (t : Template) (h : Host)
    (request : Request) (w : World)
    (hget : request.method = "GET") (horigin : request.url.origin = h.origin)
    (habsent : ∀ store ∈ w.storage, cacheMatch store.2 request.url = none)
    (hfail : h.network request.url = none) :
    (∀ doc, storageMatch w.storage (resolvePath h (fallbackPath t)) = some doc →
      (fetchHandler t h request w).1 =
        FetchOutcome.respondedWith (Settled.fulfilled (some doc))) ∧
    ((∀ store ∈ w.storage, cacheMatch store.2 (resolvePath h (fallbackPath t)) = none) →
      (fetchHandler t h request w).1 =
        FetchOutcome.respondedWith (Settled.fulfilled none)) ∧
    (fetchHandler t h request w).2.netCalls = w.netCalls ++ [request.url] ∧
    (fetchHandler t h request w).2.console =
      w.console ++ ["[Service Worker] Fetching from network: " ++ request.url.href,
        "[Service Worker] Fetch failed: TypeError: Failed to fetch"] := by
  rw [fetchHandler_handled t h request w hget horigin, fetchResponse_run,
    (storageMatch_eq_none_iff _ _).2 habsent, hfail]
  refine ⟨?_, ?_, rfl, rfl⟩
  · intro doc hdoc
    rw [hdoc]
  · intro hfb
    rw [(storageMatch_eq_none_iff _ _).2 hfb]

/-- C5 (witness). With the network down and the fallback document stored, the
handler answers with the stored document. -/
theorem fetch_transport_error_answers_fallback_lookup_witness :
    (fetchHandler exTemplate hostOffline exRequest
      (World.ofStorage
        [("pufferfishes-app-app1-v2",
          [(resolvePath hostOffline (fallbackPath exTemplate), exStale)])])).1 =
      FetchOutcome.respondedWith (Settled.fulfilled (some exStale)) :=
  (fetch_transport_error_answers_fallback_lookup exTemplate hostOffline exRequest
    (World.ofStorage
      [("pufferfishes-app-app1-v2",
        [(resolvePath hostOffline (fallbackPath exTemplate), exStale)])])
    rfl rfl (by decide) rfl).1 exStale (by decide)

/-- C6. For a same-origin GET request whose key is absent from the cache
storage and for which the network answers `r` with status 200, the caller gets
`r`; once the pending writes have completed, the store named `CACHE_NAME`
maps the request to `r`, and a second fetch of the same request is a hit that
answers `r` without a network call. -/
theorem fetch_miss_then_write_back_then_hit (t : Template) (h : Host)
    (request : Request) (w : World) (r : Response)
    (hget : request.method = "GET") (horigin : request.url.origin = h.origin)
    (habsent : ∀ store ∈ w.storage, cacheMatch store.2 request.url = none)
    (hnet : h.network request.url = some r) (hstatus : r.status = 200) :
    (fetchHandler t h request w).1 =
      FetchOutcome.respondedWith (Settled.fulfilled (some r)) ∧
    (∃ c, storeNamed (settleWrites t (fetchHandler t h request w).2).storage (CACHE_NAME t)
        = some c ∧ cacheMatch c request.url = some r) ∧
    (fetchHandler t h request (settleWrites t (fetchHandler t h request w).2)).1 =
      FetchOutcome.respondedWith (Settled.fulfilled (some r)) ∧
    (fetchHandler t h request (settleWrites t (fetchHandler t h request w).2)).2.netCalls =
      (settleWrites t (fetchHandler t h request w).2).netCalls := by
  have hfirst : fetchHandler t h request w =
      (FetchOutcome.respondedWith (Settled.fulfilled (some r)),
        { w with
          lookups := w.lookups ++ [request.url]
          netCalls := w.netCalls ++ [request.url]
          console := w.console ++
            ["[Service Worker] Fetching from network: " ++ request.url.href]
          pendingWrites := w.pendingWrites ++ [(request.url, r)] }) := by
    rw [fetchHandler_handled t h request w hget horigin, fetchResponse_run,
      (storageMatch_eq_none_iff _ _).2 habsent, hnet]
    simp [hstatus]
  have hout := congrArg Prod.fst hfirst
  have hworld := congrArg Prod.snd hfirst
  simp only at hout hworld
  rw [hworld]
  have hsettle : ∃ w0 : World, onlyIn (CACHE_NAME t) request.url w0.storage ∧
      settleWrites t
        { w with
          lookups := w.lookups ++ [request.url]
          netCalls := w.netCalls ++ [request.url]
          console := w.console ++
            ["[Service Worker] Fetching from network: " ++ request.url.href]
          pendingWrites := w.pendingWrites ++ [(request.url, r)] } =
        { w0 with storage := writeStorage t w0.storage request.url r } := by
    refine ⟨w.pendingWrites.foldl (fun acc e => (writeBack t e.1 e.2 acc).2)
        { w with
          lookups := w.lookups ++ [request.url]
          netCalls := w.netCalls ++ [request.url]
          console := w.console ++
            ["[Service Worker] Fetching from network: " ++ request.url.href]
          pendingWrites := [] }, ?_, ?_⟩
    · exact (settle_fold t w.pendingWrites
        { w with
          lookups := w.lookups ++ [request.url]
          netCalls := w.netCalls ++ [request.url]
          console := w.console ++
            ["[Service Worker] Fetching from network: " ++ request.url.href]
          pendingWrites := [] } request.url
        (fun store hmem _ => habsent store hmem)).1
    · unfold settleWrites
      simp only [List.foldl_append, List.foldl_cons, List.foldl_nil]
      rw [writeBack_run]
  obtain ⟨w0, hw0, hset⟩ := hsettle
  rw [hset]
  have hmatch : storageMatch (writeStorage t w0.storage request.url r) request.url = some r := by
    unfold storageMatch
    apply findSome_of_agree
    · intro store hmem
      rcases mem_writeStorage t _ _ _ store hmem with ⟨_, h2⟩ | ⟨h1, h2⟩
      · exact Or.inr h2
      · exact Or.inl (hw0 store h2 h1)
    · obtain ⟨store, hmem, hname⟩ := exists_named_writeStorage t w0.storage request.url r
      refine ⟨store, hmem, ?_⟩
      rcases mem_writeStorage t _ _ _ store hmem with ⟨_, h2⟩ | ⟨h1, _⟩
      · exact h2
      · exact absurd hname h1
  refine ⟨hout, ?_, ?_, ?_⟩
  · obtain ⟨store, hmem, hname⟩ := exists_named_writeStorage t w0.storage request.url r
    simp only
    unfold storeNamed
    cases hf : List.find? (fun store => store.1 == CACHE_NAME t)
        (writeStorage t w0.storage request.url r) with
    | none =>
      have := List.find?_eq_none.1 hf store hmem
      simp [hname] at this
    | some found =>
      refine ⟨found.2, rfl, ?_⟩
      have hfm := List.mem_of_find?_eq_some hf
      have hfn : found.1 = CACHE_NAME t := by simpa using List.find?_some hf
      rcases mem_writeStorage t _ _ _ found hfm with ⟨_, h2⟩ | ⟨h1, _⟩
      · exact h2
      · exact absurd hfn h1
  · rw [fetchHandler_handled t h request _ hget horigin, fetchResponse_run]
    simp only [hmatch]
  · rw [fetchHandler_handled t h request _ hget horigin, fetchResponse_run]
    simp only [hmatch]

/-- C6 (witness). From an empty storage: the write-back creates the current
store with the entry, and the second fetch is answered from it. -/
theorem fetch_miss_then_write_back_then_hit_witness :
    storeNamed
      (settleWrites exTemplate
        (fetchHandler exTemplate hostOnline exRequest (World.ofStorage [])).2).storage
      (CACHE_NAME exTemplate) = some [(exAsset, exFresh)] ∧
    (fetchHandler exTemplate hostOnline exRequest
      (settleWrites exTemplate
        (fetchHandler exTemplate hostOnline exRequest (World.ofStorage [])).2)).1 =
      FetchOutcome.respondedWith (Settled.fulfilled (some exFresh)) :=
  ⟨by decide,
    (fetch_miss_then_write_back_then_hit exTemplate hostOnline exRequest (World.ofStorage [])
      exFresh rfl rfl (by decide) rfl rfl).2.2.1⟩

/-- C7. For a request whose method is not GET or whose origin is not the
worker's, the handler does not respond to the event and leaves the world as
it was: no lookup, no network call, no store changed, no write started. -/
theorem fetch_ignores_non_get_and_cross_origin (t : Template) (h : Host)
    (request : Request) (w : World)
    (hskip : request.method ≠ "GET" ∨ request.url.origin ≠ h.origin) :
    fetchHandler t h request w = (FetchOutcome.notHandled, w) ∧
    (fetchHandler t h request w).2.lookups = w.lookups ∧
    (fetchHandler t h request w).2.netCalls = w.netCalls ∧
    (fetchHandler t h request w).2.storage = w.storage ∧
    settleWrites t (fetchHandler t h request w).2 = settleWrites t w := by
  have hrun : fetchHandler t h request w = (FetchOutcome.notHandled, w) := by
    unfold fetchHandler
    rcases hskip with hm | ho
    · rw [if_pos hm]
    · by_cases hm : request.method ≠ "GET"
      · rw [if_pos hm]
      · rw [if_neg hm, if_pos ho]
  rw [hrun]
  exact ⟨rfl, rfl, rfl, rfl, rfl⟩

/-- C7 (witness). A POST request is not handled and the world is unchanged. -/
theorem fetch_ignores_non_get_and_cross_origin_witness :
    fetchHandler exTemplate hostOnline exPost (World.ofStorage storageShadowed) =
      (FetchOutcome.notHandled, World.ofStorage storageShadowed) :=
  (fetch_ignores_non_get_and_cross_origin exTemplate hostOnline exPost
    (World.ofStorage storageShadowed) (Or.inl (by decide))).1

/-- C8 (counterexample). The current store holds the script with the fresh
response, the store of build 1, created earlier, holds it with a stale one:
the handler answers with the stale response, not with the one stored in the
current store. -/
theorem fetch_hit_may_serve_earlier_store :
    storeNamed storageShadowed (CACHE_NAME exTemplate) = some [(exAsset, exFresh)] ∧
    cacheMatch [(exAsset, exFresh)] exRequest.url = some exFresh ∧
    (fetchHandler exTemplate hostOnline exRequest (World.ofStorage storageShadowed)).1 =
      FetchOutcome.respondedWith (Settled.fulfilled (some exStale)) ∧
    exStale ≠ exFresh := by
  decide

/-- C8 (amended). For a same-origin GET request whose key is present in the
active store, the handler answers with the first response stored under that
key in creation order of the stores, which is the active store's response
whenever no other store holds the key; it makes no network call, changes no
store and starts no write. -/
theorem fetch_hit_serves_stored_response (t : Template) (h : Host)
    (request : Request) (w : World) (c : Cache) (stored : Response)
    (hget : request.method = "GET") (horigin : request.url.origin = h.origin)
    (hactive : storeNamed w.storage (CACHE_NAME t) = some c)
    (hpresent : cacheMatch c request.url = some stored) :
    (∃ r, storageMatch w.storage request.url = some r ∧
      (∃ store ∈ w.storage, cacheMatch store.2 request.url = some r) ∧
      (fetchHandler t h request w).1 =
        FetchOutcome.respondedWith (Settled.fulfilled (some r)) ∧
      ((∀ store ∈ w.storage, store.1 ≠ CACHE_NAME t →
          cacheMatch store.2 request.url = none) → r = stored)) ∧
    (fetchHandler t h request w).2.netCalls = w.netCalls ∧
    (fetchHandler t h request w).2.storage = w.storage ∧
    (fetchHandler t h request w).2.pendingWrites = w.pendingWrites := by
  have hsome : ∃ r, storageMatch w.storage request.url = some r := by
    cases hm : storageMatch w.storage request.url with
    | some r => exact ⟨r, rfl⟩
    | none =>
      exfalso
      have hall := (storageMatch_eq_none_iff _ _).1 hm
      unfold storeNamed at hactive
      cases hf : List.find? (fun store => store.1 == CACHE_NAME t) w.storage with
      | none => rw [hf] at hactive; cases hactive
      | some store =>
        rw [hf] at hactive
        simp only [Option.map_some', Option.some.injEq] at hactive
        have := hall store (List.mem_of_find?_eq_some hf)
        rw [hactive, hpresent] at this
        cases this
  obtain ⟨r, hr⟩ := hsome
  rw [fetchHandler_handled t h request w hget horigin, fetchResponse_run, hr]
  refine ⟨⟨r, rfl, storageMatch_mem _ _ _ hr, rfl, ?_⟩, rfl, rfl, rfl⟩
  intro hothers
  have := storeNamed_first w.storage (CACHE_NAME t) request.url c stored hactive hpresent hothers
  rw [hr] at this
  exact Option.some.inj this

/-- C8 (witness). With the script in the store of build 1 and in the current
store, the handler answers with the copy of the store created first, makes no
network call and leaves the storage as it was. -/
theorem fetch_hit_serves_stored_response_witness :
    (fetchHandler exTemplate hostOnline exRequest (World.ofStorage storageShadowed)).1 =
      FetchOutcome.respondedWith (Settled.fulfilled (some exStale)) ∧
    (fetchHandler exTemplate hostOnline exRequest (World.ofStorage storageShadowed)).2.netCalls
        = [] ∧
    (fetchHandler exTemplate hostOnline exRequest (World.ofStorage storageShadowed)).2.storage
        = storageShadowed := by
  obtain ⟨⟨r, hr, _, hout, _⟩, hnet, hst, _⟩ :=
    fetch_hit_serves_stored_response exTemplate hostOnline exRequest
      (World.ofStorage storageShadowed) [(exAsset, exFresh)] exFresh rfl rfl (by decide)
      (by decide)
  have hstale : storageMatch (World.ofStorage storageShadowed).storage exRequest.url =
      some exStale := by decide
  rw [hstale] at hr
  cases hr
  exact ⟨hout, hnet, hst⟩

/-! ## The seed list (C9) -/

/-- The list `files.slice(0, 50)` is the first `min n 50` entries of the `n`
files the walk finds, in the same order: a prefix of the file list with at
most 50 entries, each beginning with `/apps/<app-id>/`. -/
theorem seedList_is_bounded_prefix (appId : String) (items : List FsItem) :
    seedList (walkDir appId [] items []) =
      (walkDir appId [] items []).take (min (walkDir appId [] items []).length 50) ∧
    (seedList (walkDir appId [] items [])).length =
      min (walkDir appId [] items []).length 50 ∧
    seedList (walkDir appId [] items []) <+: walkDir appId [] items [] ∧
    (seedList (walkDir appId [] items [])).length ≤ 50 ∧
    (∀ i (hi : i < (seedList (walkDir appId [] items [])).length),
      (walkDir appId [] items [])[i]? =
        some ((seedList (walkDir appId [] items [])).get ⟨i, hi⟩)) ∧
    (∀ f ∈ seedList (walkDir appId [] items []),
      startsWith f ("/apps/" ++ appId ++ "/") = true) := by
  have hall := walkDir_allUnderApp appId [] items [] (by intro f hf; cases hf)
  generalize walkDir appId [] items [] = files at hall ⊢
  have hseed : seedList files = files.take 50 := slice_zero files 50
  have hmin : files.take (min files.length 50) = files.take 50 := by
    rw [List.take_eq_take]
    simp [Nat.min_comm]
  rw [hseed, hmin]
  refine ⟨rfl, ?_, List.take_prefix _ _, ?_, ?_, ?_⟩
  · rw [List.length_take, Nat.min_comm]
  · rw [List.length_take]; exact Nat.min_le_left _ _
  · intro i hi
    simp only [List.get_eq_getElem]
    rw [List.getElem_take]
    simp
  · intro f hf
    exact hall f (List.mem_of_mem_take hf)

/-- A replacement string without a dollar sign is inserted as it is. -/
theorem getSubstitution_of_no_dollar (matched before after : List Char) (l : List Char)
    (hl : '$' ∉ l) : getSubstitution matched before after false l = l := by
  induction l with
  | nil => rfl
  | cons c rest ih =>
    have hc : c ≠ '$' := fun e => hl (by rw [e]; exact List.mem_cons_self _ _)
    have hrest : '$' ∉ rest := fun hm => hl (List.mem_cons_of_mem _ hm)
    rw [getSubstitution, if_neg hc, ih hrest]

set_option maxRecDepth 100000 in
/-- C9 (failing input). The build directory of app `app1` holds a file named
`a$&b.js`. The walk lists it first, as `/apps/app1/a$&b.js`, but
`swContent.replace` reads `$&` in its replacement string as the matched
marker: the first entry written into the worker is
`/apps/app1/a// INJECT_FILE_LIST_HEREb.js`, and the path of the file occurs
nowhere in the injected text. -/
theorem injected_seed_differs_from_walked_file :
    walkDir "app1" [] exBuildDir [] =
      ["/apps/app1/a$&b.js", "/apps/app1/icons/icon-192.png",
       "/apps/app1/icons/icon-512.png", "/apps/app1/index.html",
       "/apps/app1/manifest.json", "/apps/app1/service-worker.js"] ∧
    injectFileList exWorkerLines (walkDir "app1" [] exBuildDir []) =
      "const urlsToCache = [\n    '/apps/app1/a// INJECT_FILE_LIST_HEREb.js',\n" ++
      "  '/apps/app1/icons/icon-192.png',\n  '/apps/app1/icons/icon-512.png',\n" ++
      "  '/apps/app1/index.html',\n  '/apps/app1/manifest.json',\n" ++
      "  '/apps/app1/service-worker.js'\n];" ∧
    splitAtFirst "/apps/app1/a$&b.js".toList
      (injectFileList exWorkerLines (walkDir "app1" [] exBuildDir [])).toList = none := by
  decide

end Pufferfishes
